/-
  Verification of the per-user server lifecycle core (jupyterhub):
  a shallow embedding of `jupyterhub/utils.py` and `jupyterhub/user.py`
  together with proofs of the specified properties.

  Conventions:
  * Pure Python functions become Lean functions with the same name.
  * Durations are modelled as rationals (`ℚ`); the cooperative clock
    advances exactly by each sleep, probes take no time.
  * External collaborators (spawner backend, authenticator hooks, OAuth
    client store, token table) are modelled from their contracts; such
    definitions carry a `Modelled from the spec:` doc comment.
-/
import Mathlib

set_option maxHeartbeats 1000000

/-! ## utils.py: `default_server_name`

`default_server_name(user)` collects the existing server names of the
user and scans `range(1, len(existing_names) + 2)` for the first `n`
with `str(n)` unused; the final `raise RuntimeError` is modelled as
`none`. -/

/-- Scanning loop of `default_server_name`: try `str(n)`, `str(n+1)`, ...
for `fuel` steps, returning the first string not in `existing`
(`none` models the `raise RuntimeError` fall-through). -/
def default_server_loop (existing : Finset String) : ℕ → ℕ → Option String
  | 0, _ => none
  | fuel + 1, n =>
    if toString n ∈ existing then default_server_loop existing fuel (n + 1)
    else some (toString n)

/-- Core of `utils.default_server_name`: given the set of existing server
names, scan `n = 1, ..., card + 1` (Python's `range(1, len + 2)`) for the
first `n` whose decimal string is unused. -/
def default_server_name_core (existing : Finset String) : Option String :=
  default_server_loop existing (existing.card + 1) 1

/-! ### Decimal read-back: `Nat.repr` is injective -/

/-- Numeric value of a decimal digit character. -/
def charVal (c : Char) : ℕ := c.toNat - 48

/-- Read a digit-character list back to a number (most significant first). -/
def readDigits (a : ℕ) (l : List Char) : ℕ :=
  l.foldl (fun acc c => 10 * acc + charVal c) a

theorem readDigits_append (a : ℕ) (l₁ l₂ : List Char) :
    readDigits a (l₁ ++ l₂) = readDigits (readDigits a l₁) l₂ := by
  simp [readDigits, List.foldl_append]

theorem charVal_digitChar (n : ℕ) (h : n < 10) : charVal (Nat.digitChar n) = n := by
  have : ∀ m : Fin 10, charVal (Nat.digitChar m.val) = m.val := by decide
  exact this ⟨n, h⟩

theorem toDigitsCore_append (b : ℕ) :
    ∀ (f n : ℕ) (ds : List Char),
      Nat.toDigitsCore b f n ds = Nat.toDigitsCore b f n [] ++ ds := by
  intro f
  induction f with
  | zero => intro n ds; simp [Nat.toDigitsCore]
  | succ f ih =>
    intro n ds
    simp only [Nat.toDigitsCore]
    by_cases h : n / b = 0
    · simp [h]
    · simp only [h, if_false]
      rw [ih (n / b) [Nat.digitChar (n % b)], ih (n / b) (Nat.digitChar (n % b) :: ds)]
      simp

theorem readDigits_toDigitsCore :
    ∀ (f n : ℕ), n < f → readDigits 0 (Nat.toDigitsCore 10 f n []) = n := by
  intro f
  induction f with
  | zero => intro n h; omega
  | succ f ih =>
    intro n h
    simp only [Nat.toDigitsCore]
    by_cases h0 : n / 10 = 0
    · have hn : n < 10 := by omega
      have hmod : n % 10 = n := Nat.mod_eq_of_lt hn
      simp [h0, readDigits, hmod, charVal_digitChar n hn]
    · simp only [h0, if_false]
      rw [toDigitsCore_append 10 f (n / 10) [Nat.digitChar (n % 10)]]
      rw [readDigits_append]
      have hlt : n / 10 < f := by
        have h1 : n / 10 < n := Nat.div_lt_self (by omega) (by omega)
        omega
      rw [ih (n / 10) hlt]
      have hm : n % 10 < 10 := Nat.mod_lt _ (by omega)
      simp [readDigits, charVal_digitChar (n % 10) hm]
      omega

theorem Nat.repr_injective : Function.Injective Nat.repr := by
  intro m n h
  have hm : readDigits 0 (Nat.toDigitsCore 10 (m + 1) m []) = m :=
    readDigits_toDigitsCore (m + 1) m (Nat.lt_succ_self m)
  have hn : readDigits 0 (Nat.toDigitsCore 10 (n + 1) n []) = n :=
    readDigits_toDigitsCore (n + 1) n (Nat.lt_succ_self n)
  have hlists : Nat.toDigitsCore 10 (m + 1) m [] = Nat.toDigitsCore 10 (n + 1) n [] := by
    have h' : (Nat.toDigits 10 m).asString = (Nat.toDigits 10 n).asString := h
    have := congrArg String.data h'
    simpa [List.asString, Nat.toDigits] using this
  rw [← hm, hlists, hn]

theorem natToString_injective : Function.Injective (fun n : ℕ => toString n) := by
  intro m n h
  exact Nat.repr_injective h

/-! ### Properties of the scanning loop -/

theorem default_server_loop_spec (existing : Finset String) :
    ∀ (fuel n : ℕ) (s : String), default_server_loop existing fuel n = some s →
      ∃ k, n ≤ k ∧ k < n + fuel ∧ s = toString k ∧ toString k ∉ existing ∧
        ∀ j, n ≤ j → j < k → toString j ∈ existing := by
  intro fuel
  induction fuel with
  | zero => intro n s h; simp [default_server_loop] at h
  | succ fuel ih =>
    intro n s h
    simp only [default_server_loop] at h
    by_cases hmem : toString n ∈ existing
    · simp only [hmem, if_true] at h
      obtain ⟨k, hk1, hk2, hk3, hk4, hk5⟩ := ih (n + 1) s h
      refine ⟨k, by omega, by omega, hk3, hk4, ?_⟩
      intro j hj1 hj2
      rcases Nat.eq_or_lt_of_le hj1 with rfl | hj
      · exact hmem
      · exact hk5 j hj hj2
    · simp only [hmem, if_false, Option.some.injEq] at h
      exact ⟨n, le_refl n, by omega, h.symm, hmem, fun j hj1 hj2 => absurd hj1 (by omega)⟩

theorem default_server_loop_total (existing : Finset String) :
    ∀ (fuel n : ℕ), (∃ k, n ≤ k ∧ k < n + fuel ∧ toString k ∉ existing) →
      default_server_loop existing fuel n ≠ none := by
  intro fuel
  induction fuel with
  | zero => intro n ⟨k, h1, h2, _⟩; omega
  | succ fuel ih =>
    intro n ⟨k, h1, h2, h3⟩
    simp only [default_server_loop]
    by_cases hmem : toString n ∈ existing
    · simp only [hmem, if_true]
      apply ih
      refine ⟨k, ?_, by omega, h3⟩
      rcases Nat.eq_or_lt_of_le h1 with rfl | h
      · exact absurd hmem h3
      · omega
    · simp [hmem]

theorem exists_unused_name (existing : Finset String) :
    ∃ k, 1 ≤ k ∧ k < 1 + (existing.card + 1) ∧ toString k ∉ existing := by
  by_contra hcon
  push_neg at hcon
  have hsub : (Finset.range (existing.card + 1)).image (fun i => toString (i + 1)) ⊆ existing := by
    intro s hs
    simp only [Finset.mem_image, Finset.mem_range] at hs
    obtain ⟨i, hi, rfl⟩ := hs
    exact hcon (i + 1) (by omega) (by omega)
  have hinj : Function.Injective (fun i : ℕ => toString (i + 1)) := by
    intro a b h
    have := natToString_injective h
    omega
  have hcard : ((Finset.range (existing.card + 1)).image (fun i => toString (i + 1))).card
      = existing.card + 1 := by
    rw [Finset.card_image_of_injective _ hinj, Finset.card_range]
  have := Finset.card_le_card hsub
  omega

theorem default_server_name_core_spec (existing : Finset String) :
    ∃ k, 0 < k ∧ default_server_name_core existing = some (toString k) ∧
      toString k ∉ existing ∧ ∀ j, 0 < j → j < k → toString j ∈ existing := by
  have htot := default_server_loop_total existing (existing.card + 1) 1
    (exists_unused_name existing)
  cases hres : default_server_loop existing (existing.card + 1) 1 with
  | none => exact absurd hres htot
  | some s =>
    obtain ⟨k, hk1, _, hk3, hk4, hk5⟩ := default_server_loop_spec existing _ _ _ hres
    refine ⟨k, by omega, ?_, hk4, fun j hj1 hj2 => hk5 j (by omega) hj2⟩
    rw [default_server_name_core, hres, hk3]

/-! ## utils.py: Backoff Poller (`wait_for_server`, `wait_for_http_server`)

The loop is shallowly embedded with an explicit cooperative clock: each
`yield gen.sleep(dt)` advances the elapsed time by exactly `dt`, probes
take no time, and the probe outcome of attempt `k` is given by a
sequence `probe : ℕ → _`.  The loop consumes one unit of `fuel` per
iteration; `none` marks fuel exhaustion and is proved unreachable for
the fuel supplied by `wait_for_server`. -/

/-- Source constant `DT_MIN = 0.1`. -/
def DT_MIN : ℚ := 1 / 10

/-- Source constant `DT_SCALE = 2`. -/
def DT_SCALE : ℚ := 2

/-- Source constant `DT_MAX = 5`. -/
def DT_MAX : ℚ := 5

/-- Outcome of `wait_for_server`: normal return at probe `k`, or the
`TimeoutError` raise. -/
inductive WaitOutcome where
  | connected (k : ℕ)
  | timedOut
deriving DecidableEq, Repr

/-- Body of `wait_for_server`: `while dt > 0: if can_connect(...): return;
yield gen.sleep(dt); dt = min(dt*DT_SCALE, DT_MAX, timeout - (loop.time() - tic))`,
then `raise TimeoutError`. -/
def waitLoop (probe : ℕ → Bool) (timeout : ℚ) :
    ℕ → ℕ → ℚ → ℚ → Option WaitOutcome
  | 0, _, _, _ => none
  | fuel + 1, k, dt, elapsed =>
    if 0 < dt then
      if probe k then some (.connected k)
      else
        let elapsed' := elapsed + dt
        waitLoop probe timeout fuel (k + 1)
          (min (min (dt * DT_SCALE) DT_MAX) (timeout - elapsed')) elapsed'
    else some .timedOut

/-- Iterations provably sufficient for the loop to hit `dt ≤ 0`. -/
def waitFuel (timeout : ℚ) : ℕ := 10 * (max ⌈timeout⌉ 0).toNat + 2

/-- Embedding of `wait_for_server` with the connectivity probe abstracted: start with
`dt = DT_MIN` and elapsed time `0`. -/
def wait_for_server (probe : ℕ → Bool) (timeout : ℚ) : Option WaitOutcome :=
  waitLoop probe timeout (waitFuel timeout) 0 DT_MIN 0

/-- Closed form of the loop's `(dt, elapsed)` pair before attempt `k`;
this is independent of the probe. -/
def dtElapsed (timeout : ℚ) : ℕ → ℚ × ℚ
  | 0 => (DT_MIN, 0)
  | k + 1 =>
    let p := dtElapsed timeout k
    let elapsed' := p.2 + p.1
    (min (min (p.1 * DT_SCALE) DT_MAX) (timeout - elapsed'), elapsed')

/-- Sleep delay scheduled before attempt `k+1` (and checked at attempt `k`). -/
def dtSeq (timeout : ℚ) (k : ℕ) : ℚ := (dtElapsed timeout k).1

/-- Elapsed time at attempt `k`. -/
def elapsedSeq (timeout : ℚ) (k : ℕ) : ℚ := (dtElapsed timeout k).2

/-! ### Characterization of the poller -/

theorem waitLoop_step (probe : ℕ → Bool) (t : ℚ) (fuel k : ℕ)
    (hdt : 0 < dtSeq t k) (hp : probe k = false) :
    waitLoop probe t (fuel + 1) k (dtSeq t k) (elapsedSeq t k) =
      waitLoop probe t fuel (k + 1) (dtSeq t (k + 1)) (elapsedSeq t (k + 1)) := by
  simp only [waitLoop, hdt, if_true, hp, Bool.false_eq_true, if_false]
  simp [dtSeq, elapsedSeq, dtElapsed]

theorem waitLoop_advance (probe : ℕ → Bool) (t : ℚ) :
    ∀ (k fuel : ℕ), (∀ j, j < k → probe j = false ∧ 0 < dtSeq t j) →
      waitLoop probe t (fuel + k) 0 (dtSeq t 0) (elapsedSeq t 0) =
        waitLoop probe t fuel k (dtSeq t k) (elapsedSeq t k) := by
  intro k
  induction k with
  | zero => intro fuel _; rfl
  | succ k ih =>
    intro fuel h
    have h1 : fuel + (k + 1) = (fuel + 1) + k := by omega
    rw [h1, ih (fuel + 1) (fun j hj => h j (by omega))]
    exact waitLoop_step probe t fuel k (h k (by omega)).2 (h k (by omega)).1

theorem dtSeq_zero (t : ℚ) : dtSeq t 0 = DT_MIN := rfl

theorem elapsedSeq_zero (t : ℚ) : elapsedSeq t 0 = 0 := rfl

theorem dtSeq_succ (t : ℚ) (k : ℕ) :
    dtSeq t (k + 1) =
      min (min (dtSeq t k * DT_SCALE) DT_MAX) (t - elapsedSeq t (k + 1)) := by
  simp [dtSeq, elapsedSeq, dtElapsed]

theorem elapsedSeq_succ (t : ℚ) (k : ℕ) :
    elapsedSeq t (k + 1) = elapsedSeq t k + dtSeq t k := by
  simp [dtSeq, elapsedSeq, dtElapsed]

theorem dtSeq_le_budget (t : ℚ) (k : ℕ) :
    dtSeq t (k + 1) ≤ t - elapsedSeq t (k + 1) := by
  rw [dtSeq_succ]; exact min_le_right _ _

theorem dtSeq_ge_min (t : ℚ) :
    ∀ (j K : ℕ), j + 1 ≤ K → (∀ i, i ≤ K → 0 < dtSeq t i) → DT_MIN ≤ dtSeq t j := by
  intro j
  induction j with
  | zero => intro K _ _; rw [dtSeq_zero]
  | succ j ih =>
    intro K hK hpos
    have hj : DT_MIN ≤ dtSeq t j := ih K (by omega) hpos
    rcases le_or_lt (min (dtSeq t j * DT_SCALE) DT_MAX) (t - elapsedSeq t (j + 1)) with hle | hlt
    · rw [dtSeq_succ, min_eq_left hle]
      refine le_min ?_ ?_
      · have h1 : (0 : ℚ) < DT_MIN := by norm_num [DT_MIN]
        have h2 : DT_SCALE = (2 : ℚ) := rfl
        rw [h2]; linarith
      · norm_num [DT_MIN, DT_MAX]
    · exfalso
      have heq : dtSeq t (j + 1) = t - elapsedSeq t (j + 1) := by
        rw [dtSeq_succ, min_eq_right (le_of_lt hlt)]
      have hnext : dtSeq t (j + 2) ≤ t - elapsedSeq t (j + 2) := dtSeq_le_budget t (j + 1)
      have hzero : t - elapsedSeq t (j + 2) = 0 := by
        rw [elapsedSeq_succ t (j + 1), heq]; ring
      have := hpos (j + 2) (by omega)
      rw [hzero] at hnext
      linarith

theorem elapsedSeq_ge (t : ℚ) :
    ∀ (K : ℕ), (∀ i, i ≤ K → 0 < dtSeq t i) → (K : ℚ) * DT_MIN ≤ elapsedSeq t K := by
  intro K
  induction K with
  | zero => intro _; simp [elapsedSeq_zero]
  | succ K ih =>
    intro hpos
    have h1 : (K : ℚ) * DT_MIN ≤ elapsedSeq t K := ih (fun i hi => hpos i (by omega))
    have h2 : DT_MIN ≤ dtSeq t K := dtSeq_ge_min t K (K + 1) (by omega) hpos
    rw [elapsedSeq_succ]
    push_cast
    linarith

theorem exists_dtSeq_nonpos (t : ℚ) : ∃ K, dtSeq t K ≤ 0 := by
  by_contra hcon
  push_neg at hcon
  obtain ⟨K₀, hK₀⟩ := exists_nat_gt (10 * t)
  have hK : (10 : ℚ) * t < (K₀ + 1 : ℕ) := by push_cast; linarith
  have hpos : ∀ i, i ≤ K₀ + 1 → 0 < dtSeq t i := fun i _ => hcon i
  have h1 : ((K₀ + 1 : ℕ) : ℚ) * DT_MIN ≤ elapsedSeq t (K₀ + 1) := elapsedSeq_ge t (K₀ + 1) hpos
  have h2 : dtSeq t (K₀ + 1) ≤ t - elapsedSeq t (K₀ + 1) := dtSeq_le_budget t K₀
  have h3 : 0 < dtSeq t (K₀ + 1) := hcon (K₀ + 1)
  have : elapsedSeq t (K₀ + 1) < t := by linarith
  have : ((K₀ + 1 : ℕ) : ℚ) * DT_MIN < t := lt_of_le_of_lt h1 this
  rw [DT_MIN] at this
  push_cast at this hK
  linarith

/-- The loop necessarily halts: some attempt sees a non-positive delay or
a ready probe. -/
theorem exists_halt (probe : ℕ → Bool) (t : ℚ) :
    ∃ k, dtSeq t k ≤ 0 ∨ probe k = true := by
  obtain ⟨K, hK⟩ := exists_dtSeq_nonpos t
  exact ⟨K, Or.inl hK⟩

/-- Index of the attempt at which the loop halts. -/
def haltIdx (probe : ℕ → Bool) (t : ℚ) : ℕ :=
  Nat.find (exists_halt probe t)

theorem haltIdx_halt (probe : ℕ → Bool) (t : ℚ) :
    dtSeq t (haltIdx probe t) ≤ 0 ∨ probe (haltIdx probe t) = true :=
  Nat.find_spec (exists_halt probe t)

theorem haltIdx_min (probe : ℕ → Bool) (t : ℚ) :
    ∀ j, j < haltIdx probe t → probe j = false ∧ 0 < dtSeq t j := by
  intro j hj
  have := Nat.find_min (exists_halt probe t) hj
  push_neg at this
  exact ⟨Bool.not_eq_true _ |>.mp this.2, this.1⟩

theorem haltIdx_lt_fuel (probe : ℕ → Bool) (t : ℚ) :
    haltIdx probe t + 1 ≤ waitFuel t := by
  set N := haltIdx probe t with hN
  rcases Nat.lt_or_ge N 2 with h2 | h2
  · have hw : waitFuel t = 10 * (max ⌈t⌉ 0).toNat + 2 := rfl
    omega
  · have hpos : ∀ i, i ≤ N - 1 → 0 < dtSeq t i := by
      intro i hi
      exact (haltIdx_min probe t i (by omega)).2
    have h1 : ((N - 1 : ℕ) : ℚ) * DT_MIN ≤ elapsedSeq t (N - 1) := elapsedSeq_ge t (N - 1) hpos
    have h2' : dtSeq t (N - 1) ≤ t - elapsedSeq t (N - 1) := by
      have : N - 1 = (N - 2) + 1 := by omega
      rw [this]
      exact dtSeq_le_budget t (N - 2)
    have h3 : 0 < dtSeq t (N - 1) := (haltIdx_min probe t (N - 1) (by omega)).2
    have h4 : ((N - 1 : ℕ) : ℚ) * DT_MIN < t := by linarith
    have h5 : ((N - 1 : ℕ) : ℚ) < 10 * t := by
      rw [DT_MIN] at h4; linarith
    have h6 : (t : ℚ) ≤ ((max ⌈t⌉ 0).toNat : ℚ) := by
      rcases le_or_lt t 0 with ht | ht
      · have : (0 : ℚ) ≤ ((max ⌈t⌉ 0).toNat : ℚ) := by positivity
        linarith
      · have hc : (t : ℚ) ≤ (⌈t⌉ : ℚ) := Int.le_ceil t
        have hm : ⌈t⌉ ≤ max ⌈t⌉ 0 := le_max_left _ _
        have hnn : 0 ≤ max ⌈t⌉ 0 := le_max_right _ _
        have : ((max ⌈t⌉ 0).toNat : ℤ) = max ⌈t⌉ 0 := Int.toNat_of_nonneg hnn
        have : ((max ⌈t⌉ 0).toNat : ℚ) = ((max ⌈t⌉ 0 : ℤ) : ℚ) := by
          exact_mod_cast congrArg (fun z : ℤ => (z : ℚ)) this
        rw [this]
        calc (t : ℚ) ≤ (⌈t⌉ : ℚ) := hc
        _ ≤ ((max ⌈t⌉ 0 : ℤ) : ℚ) := by exact_mod_cast hm
    have h7 : ((N - 1 : ℕ) : ℚ) < 10 * ((max ⌈t⌉ 0).toNat : ℚ) := by linarith
    have h8 : N - 1 < 10 * (max ⌈t⌉ 0).toNat := by exact_mod_cast h7
    rw [waitFuel]
    omega

/-- Full characterization: `wait_for_server` returns at the halt index,
connected if the delay was still positive and the probe was ready there,
timed out otherwise.  In particular the fuel never runs out. -/
theorem wait_for_server_char (probe : ℕ → Bool) (t : ℚ) :
    wait_for_server probe t =
      some (if 0 < dtSeq t (haltIdx probe t) ∧ probe (haltIdx probe t) = true
            then .connected (haltIdx probe t) else .timedOut) := by
  set N := haltIdx probe t with hN
  have hfuel : waitFuel t = (waitFuel t - N) + N := by
    have := haltIdx_lt_fuel probe t
    omega
  have h0 : wait_for_server probe t =
      waitLoop probe t (waitFuel t) 0 (dtSeq t 0) (elapsedSeq t 0) := by
    rw [wait_for_server, dtSeq_zero, elapsedSeq_zero]
  rw [h0, hfuel, waitLoop_advance probe t N (waitFuel t - N) (haltIdx_min probe t)]
  have hge1 : 1 ≤ waitFuel t - N := by
    have := haltIdx_lt_fuel probe t
    omega
  obtain ⟨m, hm⟩ : ∃ m, waitFuel t - N = m + 1 := ⟨waitFuel t - N - 1, by omega⟩
  rw [hm]
  rcases haltIdx_halt probe t with hhalt | hhalt
  · have hnpos : ¬ (0 < dtSeq t N) := by linarith
    simp only [waitLoop, hnpos, if_false]
    have : ¬ (0 < dtSeq t N ∧ probe N = true) := fun h => hnpos h.1
    simp [this]
  · by_cases hdt : 0 < dtSeq t N
    · simp only [waitLoop, hdt, if_true, hhalt]
      simp [hdt, hhalt]
    · simp only [waitLoop, hdt, if_false]
      have : ¬ (0 < dtSeq t N ∧ probe N = true) := fun h => hdt h.1
      simp [this]

/-- While the remaining time budget is not the binding cap, the delay
sequence is exactly `min (DT_MIN * 2 ^ k) DT_MAX`: 0.1, 0.2, 0.4, ...
capped at 5. -/
theorem dtSeq_cap (t : ℚ) :
    ∀ k, (∀ j, j ≤ k → min (DT_MIN * 2 ^ j) DT_MAX ≤ t - elapsedSeq t j) →
      dtSeq t k = min (DT_MIN * 2 ^ k) DT_MAX := by
  intro k
  induction k with
  | zero => intro _; rw [dtSeq_zero]; norm_num [DT_MIN, DT_MAX]
  | succ k ih =>
    intro h
    have hk := ih (fun j hj => h j (by omega))
    have hcap : min (dtSeq t k * DT_SCALE) DT_MAX = min (DT_MIN * 2 ^ (k + 1)) DT_MAX := by
      rw [hk]
      rcases le_total (DT_MIN * 2 ^ k) DT_MAX with hc | hc
      · rw [min_eq_left hc]
        have he : DT_MIN * 2 ^ k * DT_SCALE = DT_MIN * 2 ^ (k + 1) := by
          rw [DT_SCALE]; ring
        rw [he]
      · rw [min_eq_right hc]
        have h5 : DT_MAX * DT_SCALE = 10 := by norm_num [DT_MAX, DT_SCALE]
        have h6 : (DT_MAX : ℚ) ≤ DT_MIN * 2 ^ (k + 1) := by
          have he : DT_MIN * 2 ^ (k + 1) = (DT_MIN * 2 ^ k) * 2 := by ring
          rw [he]
          norm_num [DT_MAX] at hc ⊢
          linarith
        rw [h5, min_eq_right (by norm_num [DT_MAX]), min_eq_right h6]
    rw [dtSeq_succ, hcap, min_eq_left (h (k + 1) (by omega))]

/-! ### `wait_for_http_server`

One fetch attempt of the HTTP probe has four possible outcomes, matching
the `try`/`except` structure of the source: the fetch returns a response
`r`; it raises `HTTPError` with a status code and an attached response
(`e.code`, `e.response`); it raises a connection-level `OSError` /
`socket.error`; or it raises anything else, which no `except` clause
catches.  Responses and other errors are abstract (`ℕ` identifiers). -/

inductive FetchOutcome where
  | fetched (r : ℕ)
  | httpError (code : ℕ) (resp : ℕ)
  | connError (errno : ℕ)
  | raised (e : ℕ)
deriving DecidableEq, Repr

/-- Classification of one probe iteration performed by the body of
`wait_for_http_server`'s loop. -/
inductive ProbeStep where
  | ready (r : ℕ)
  | notReady
  | error (e : ℕ)
deriving DecidableEq, Repr

/-- Dispatch of `wait_for_http_server`'s `try`/`except` clauses: a fetched
response is returned; `HTTPError` with `e.code >= 500` sleeps and retries,
otherwise `e.response` is returned; `OSError`/`socket.error` sleeps and
retries; any other exception propagates. -/
def http_step : FetchOutcome → ProbeStep
  | .fetched r => .ready r
  | .httpError code resp => if 500 ≤ code then .notReady else .ready resp
  | .connError _ => .notReady
  | .raised e => .error e

/-- Outcome of `wait_for_http_server`: a response, the `TimeoutError`
raise, or an uncaught exception propagating to the caller. -/
inductive HttpWaitOutcome where
  | ready (r : ℕ)
  | timedOut
  | raised (e : ℕ)
deriving DecidableEq, Repr

/-- Body of `wait_for_http_server`: same backoff skeleton as
`wait_for_server`, with the three-way probe classification. -/
def httpLoop (probe : ℕ → FetchOutcome) (timeout : ℚ) :
    ℕ → ℕ → ℚ → ℚ → Option HttpWaitOutcome
  | 0, _, _, _ => none
  | fuel + 1, k, dt, elapsed =>
    if 0 < dt then
      match http_step (probe k) with
      | .ready r => some (.ready r)
      | .error e => some (.raised e)
      | .notReady =>
        let elapsed' := elapsed + dt
        httpLoop probe timeout fuel (k + 1)
          (min (min (dt * DT_SCALE) DT_MAX) (timeout - elapsed')) elapsed'
    else some .timedOut

/-- Embedding of `wait_for_http_server` with the fetch outcomes abstracted. -/
def wait_for_http_server (probe : ℕ → FetchOutcome) (timeout : ℚ) :
    Option HttpWaitOutcome :=
  httpLoop probe timeout (waitFuel timeout) 0 DT_MIN 0

/-! ## utils.py: `url_path_join` -/

/-- Python `s.strip('/')`: remove leading and trailing slashes. -/
def stripSlashes (s : String) : String :=
  String.mk (((s.toList.dropWhile (· == '/')).reverse.dropWhile (· == '/')).reverse)

/-- Source function `utils.url_path_join(*pieces)`. -/
def url_path_join (pieces : List String) : String :=
  let initial := (pieces.headD "").startsWith "/"
  let final := (pieces.getLastD "").endsWith "/"
  let stripped := pieces.map stripSlashes
  let r0 := String.intercalate "/" (stripped.filter (fun s => s ≠ ""))
  let r1 := if initial then "/" ++ r0 else r0
  let r2 := if final then r1 ++ "/" else r1
  if r2 == "//" then "/" else r2

/-! ## user.py: data model

`User` wraps an ORM identity; the fields the lifecycle touches are made
explicit.  Persistent rows (server records, API tokens, OAuth clients)
and the transient flags live in one `SessionState`.  The spawner's
mutable attributes (`server_name`, `api_token`, ...) are part of the
state; its backend behaviour is an abstract `SpawnerCfg`, and the
outcomes of the external calls made during one spawn or stop are an
explicit environment (`SpawnEnv` / `StopEnv`). -/

/-- Exception value: `gen.TimeoutError` / builtin `TimeoutError` are the
timeout classes their phase tests for; everything else is `otherExc`. -/
inductive Exc where
  | timeoutExc
  | otherExc (code : ℕ)
deriving DecidableEq, Repr

/-- One `orm.Server` row: `name`, `base_url`, plus the `ip`/`port` that
`spawn` records from `spawner.start()`'s return value. -/
structure ServerRec where
  name : String
  base_url : String
  ip : String
  port : ℕ
deriving DecidableEq, Repr

/-- Spawner attributes assigned by `User.spawn` / read by `User.stop`.
The `blob` is the state returned by `get_state`; `polling` reflects
`start_polling` / `stop_polling`. -/
structure SpawnerAttrs where
  server_name : String
  user_options : List (String × String)
  api_token : String
  admin_access : Bool
  oauth_client_id : String
  blob : ℕ
  polling : Bool
deriving DecidableEq, Repr

/-- One registered OAuth client: `(client_id, secret, redirect_uri)`. -/
structure OAuthClient where
  client_id : String
  secret : String
  redirect_uri : String
deriving DecidableEq, Repr

/-- Transient and persisted state of one user session.  `tokens` is the
list of this user's live API-token rows; `proxy_pending` is the fourth
flag present on the class (`User.proxy_pending`), never mutated by
`spawn`/`stop`. -/
structure SessionState where
  spawn_pending : Bool
  stop_pending : Bool
  proxy_pending : Bool
  waiting_for_response : Bool
  servers : List ServerRec
  tokens : List String
  clients : List OAuthClient
  state_blob : ℕ
  last_activity : ℕ
  spawner : SpawnerAttrs
deriving DecidableEq, Repr

/-- Modelled from the spec: fields readable from the Spawner Contract
(`willResume`) together with the backend-specific behaviour of
`clear_state`/`get_state`/`start` that the core observes: the blob
`clear_state` resets to, the blob `get_state` reports after a successful
`start`, and the API token the spawner holds after `start` (present when
the backend resumed with a previously issued token). -/
structure SpawnerCfg where
  will_resume : Bool
  cleared_blob : ℕ
  start_blob : ℕ
  resume_token : Option String
deriving DecidableEq, Repr

/-- Per-session configuration copied from `self.settings` at the points
`spawn`/`stop` read it.  `escaped_name` stands for the stdlib
`quote(self.name, safe='@')` (external). -/
structure HubSettings where
  allow_named_servers : Bool
  has_authenticator : Bool
  has_oauth : Bool
  admin_access : Bool
  base_url : String
  escaped_name : String
  user_url : String
deriving DecidableEq, Repr

/-- Modelled from the spec: outcomes of the external calls one `stop()`
makes — whether `spawner.poll()` reports an already-exited backend
(status not `None`), whether the try-block's `spawner.stop()` raises,
and whether the authenticator's `post_spawn_stop` hook raises. -/
structure StopEnv where
  poll_exited : Bool
  stop_exc : Option Exc
  post_hook_raises : Bool
deriving DecidableEq, Repr

/-- Modelled from the spec: outcomes of the external calls one `spawn()`
makes — the pre-spawn hook, `spawner.start()` (which may time out, raise,
or return an optional `(ip, port)`), and the readiness wait
`server.wait_up` (which may time out, raise, or return a response). -/
structure SpawnEnv where
  pre_hook_exc : Option Exc
  start_result : Except Exc (Option (String × ℕ))
  wait_result : Except Exc ℕ
  stop_env : StopEnv
deriving Repr

/-- Result of one operation: every intermediate state in program order
(the trace), the final state, and the raised exception if any, tagged
with the `e.reason` string `spawn` attaches ('timeout' / 'error';
`none` for exceptions it does not tag). -/
structure OpResult where
  trace : List SessionState
  final : SessionState
  err : Option (Exc × Option String)
deriving Repr

/-- Source function `utils.default_server_name(user)`: set of existing server names of
the user, then the scan. -/
def default_server_name (servers : List ServerRec) : Option String :=
  default_server_name_core (servers.map (fun r => r.name)).toFinset

/-- Deterministic OAuth client id: `'user-' + escaped_name`, suffixed
with `'-' + server_name` when the server name is non-empty (Python
truthiness of the string). -/
def oauthClientId (st : HubSettings) (server_name : String) : String :=
  let cid := "user-" ++ st.escaped_name
  if server_name ≠ "" then cid ++ "-" ++ server_name else cid

/-- Modelled from the spec: the OAuth client store's
`fetch_by_client_id`, `None` standing for the `ClientNotFoundError`
path. -/
def fetch_by_client_id (clients : List OAuthClient) (cid : String) : Option OAuthClient :=
  clients.find? (fun c => c.client_id = cid)

/-- Modelled from the spec: the OAuth client store's `add_client`,
binding the client id to the new secret and callback URL (replacing any
registration with the same id). -/
def add_client (clients : List OAuthClient) (cid secret redirect : String) :
    List OAuthClient :=
  ⟨cid, secret, redirect⟩ :: clients.filter (fun c => c.client_id ≠ cid)

/-- Assignment `server.ip, server.port = ip_port`: the `Server` object wraps the
`orm_server` appended by this spawn, i.e. the last record. -/
def updateLastServer (servers : List ServerRec) (ip : String) (port : ℕ) : List ServerRec :=
  match servers with
  | [] => []
  | [r] => [{ r with ip := ip, port := port }]
  | r :: rest => r :: updateLastServer rest ip port

namespace User

/-- Property `User.running`: false while `spawn_pending`, `stop_pending` or
`proxy_pending` is set, false when `self.server is None` (no server
row), true otherwise. -/
def running (s : SessionState) : Bool :=
  if s.spawn_pending || s.stop_pending || s.proxy_pending then false
  else if s.servers.isEmpty then false
  else true

/-- Coroutine `User.stop`: clear `spawn_pending`, stop polling, set `stop_pending`;
in the try block poll once, call `spawner.stop()` only if the poll
reported `None` (still running), reset and persist spawner state, delete
every server row, delete the API token unless the spawner will resume;
in the finally block run the post-stop hook (errors swallowed) and clear
`stop_pending` unconditionally. -/
def stop (cfg : SpawnerCfg) (senv : StopEnv) (now : ℕ) (s : SessionState) : OpResult :=
  let s1 := { s with spawn_pending := false }
  let s2 := { s1 with spawner := { s1.spawner with polling := false } }
  let s3 := { s2 with stop_pending := true }
  let api_token := s3.spawner.api_token
  match (if senv.poll_exited then none else senv.stop_exc) with
  | some e =>
    -- `spawner.stop()` raised: the rest of the try block is skipped, the
    -- finally block still runs the hook and clears the flag.
    let s8 := { s3 with stop_pending := false }
    { trace := [s1, s2, s3, s8], final := s8, err := some (e, none) }
  | none =>
    let s4 := { s3 with spawner := { s3.spawner with blob := cfg.cleared_blob } }
    let s5 := { s4 with state_blob := s4.spawner.blob, last_activity := now }
    let s6 := { s5 with servers := [] }
    let s7 := { s6 with tokens :=
      if cfg.will_resume then s6.tokens else s6.tokens.erase api_token }
    let s8 := { s7 with stop_pending := false }
    { trace := [s1, s2, s3, s4, s5, s6, s7, s8], final := s8, err := none }

/-- Coroutine `User.spawn`: compute the server name and base path, persist a new
server row and API token, configure the spawner and register the OAuth
client, run the pre-spawn hook, set `spawn_pending`, start under
`start_timeout` (failure: tag reason, cleanup via `stop`, swallow
cleanup errors, re-raise), record `(ip, port)`, discard the fresh token
if the spawner resumed with another one, start polling, persist state,
set `waiting_for_response`, wait for HTTP readiness under `http_timeout`
(failure: same policy), and in the final cleanup clear
`waiting_for_response` then `spawn_pending`. -/
def computeServerName (st : HubSettings)
    (options : Option (List (String × String))) (servers : List ServerRec) : String :=
  if st.allow_named_servers then
    match options.bind (fun o => o.lookup "server_name") with
    | some n => n
    | none => (default_server_name servers).getD ""
  else ""

def spawn (cfg : SpawnerCfg) (st : HubSettings) (env : SpawnEnv)
    (fresh : String) (options : Option (List (String × String))) (now : ℕ)
    (s₀ : SessionState) : OpResult :=
  let server_name := computeServerName st options s₀.servers
  let base_url :=
    if st.allow_named_servers then url_path_join [st.base_url, server_name] ++ "/"
    else st.base_url
  let sA := { s₀ with servers := s₀.servers ++ [⟨server_name, base_url, "", 0⟩] }
  -- `new_api_token()` — modelled from the spec: issue and persist a
  -- fresh API token row.
  let sB := { sA with tokens := sA.tokens ++ [fresh] }
  let cid := oauthClientId st server_name
  let sC := { sB with spawner := { sB.spawner with
      server_name := server_name,
      user_options := options.getD [],
      blob := cfg.cleared_blob,
      api_token := fresh,
      admin_access := st.admin_access,
      oauth_client_id := cid } }
  let newClients :=
    if st.has_oauth then
      if (fetch_by_client_id sC.clients cid).isNone || !cfg.will_resume then
        add_client sC.clients cid fresh (url_path_join [st.user_url, "oauth_callback"])
      else sC.clients
    else sC.clients
  let sD := { sC with clients := newClients }
  match (if st.has_authenticator then env.pre_hook_exc else none) with
  | some e =>
    -- pre-spawn hook raised: nothing is cleaned up, the exception
    -- propagates untagged.
    { trace := [sA, sB, sC, sD], final := sD, err := some (e, none) }
  | none =>
    let sF := { sD with spawn_pending := true }
    match env.start_result with
    | .error e =>
      let reason := if e = .timeoutExc then "timeout" else "error"
      let stopRes := stop cfg env.stop_env now sF
      -- cleanup failures are swallowed; the original exception is re-raised
      { trace := [sA, sB, sC, sD, sF] ++ stopRes.trace,
        final := stopRes.final, err := some (e, some reason) }
    | .ok ip_port =>
      let sG := { sF with servers := match ip_port with
        | some (ip, port) => updateLastServer sF.servers ip port
        | none => sF.servers }  -- legacy spawner: deprecation warning only
      -- after `start` the spawner holds its resumed token, if any
      let sH := { sG with spawner := { sG.spawner with
          blob := cfg.start_blob,
          api_token := (cfg.resume_token).getD sG.spawner.api_token } }
      let sI := { sH with tokens :=
        if sH.spawner.api_token ≠ fresh then sH.tokens.erase fresh else sH.tokens }
      let sJ := { sI with spawner := { sI.spawner with polling := true } }
      let sK := { sJ with state_blob := sJ.spawner.blob, last_activity := now }
      let sL := { sK with waiting_for_response := true }
      match env.wait_result with
      | .error e =>
        let reason := if e = .timeoutExc then "timeout" else "error"
        let stopRes := stop cfg env.stop_env now sL
        let sY := { stopRes.final with waiting_for_response := false }
        let sZ := { sY with spawn_pending := false }
        { trace := [sA, sB, sC, sD, sF, sG, sH, sI, sJ, sK, sL]
            ++ stopRes.trace ++ [sY, sZ],
          final := sZ, err := some (e, some reason) }
      | .ok _resp =>
        let sY := { sL with waiting_for_response := false }
        let sZ := { sY with spawn_pending := false }
        { trace := [sA, sB, sC, sD, sF, sG, sH, sI, sJ, sK, sL, sY, sZ],
          final := sZ, err := none }

end User

/-- Fresh session state as built by `UserDict.__getitem__` for a user
with no servers, tokens or clients. -/
def initState : SessionState :=
  { spawn_pending := false, stop_pending := false, proxy_pending := false,
    waiting_for_response := false, servers := [], tokens := [], clients := [],
    state_blob := 0, last_activity := 0,
    spawner := { server_name := "", user_options := [], api_token := "",
                 admin_access := false, oauth_client_id := "", blob := 0,
                 polling := false } }

/-- Session states at which an operation may be initiated: the initial
state and the final states of completed operations.  `spawn` is gated by
its documented precondition (not already spawn-pending or running);
`stop` may be called at any such point. -/
inductive ReachDone (cfg : SpawnerCfg) (st : HubSettings) : SessionState → Prop where
  | init : ReachDone cfg st initState
  | spawnFinal {s : SessionState}
      (env : SpawnEnv) (fresh : String) (options : Option (List (String × String)))
      (now : ℕ) :
      ReachDone cfg st s → s.spawn_pending = false → User.running s = false →
      ReachDone cfg st (User.spawn cfg st env fresh options now s).final
  | stopFinal {s : SessionState} (senv : StopEnv) (now : ℕ) :
      ReachDone cfg st s → ReachDone cfg st (User.stop cfg senv now s).final

/-- Every state the session passes through: quiescent states plus every
intermediate state of a running `spawn` or `stop`. -/
inductive Reach (cfg : SpawnerCfg) (st : HubSettings) : SessionState → Prop where
  | done {s : SessionState} : ReachDone cfg st s → Reach cfg st s
  | spawnMid {s s' : SessionState}
      (env : SpawnEnv) (fresh : String) (options : Option (List (String × String)))
      (now : ℕ) :
      ReachDone cfg st s → s.spawn_pending = false → User.running s = false →
      s' ∈ (User.spawn cfg st env fresh options now s).trace → Reach cfg st s'
  | stopMid {s s' : SessionState} (senv : StopEnv) (now : ℕ) :
      ReachDone cfg st s → s' ∈ (User.stop cfg senv now s).trace → Reach cfg st s'

/-! ### Flag behaviour of `stop` -/

theorem stop_trace_sp_false (cfg : SpawnerCfg) (senv : StopEnv) (now : ℕ) (s : SessionState) :
    ∀ x ∈ (User.stop cfg senv now s).trace, x.spawn_pending = false := by
  intro x hx
  cases h : (if senv.poll_exited then none else senv.stop_exc) with
  | none =>
    simp only [User.stop, h] at hx
    simp only [List.mem_cons, List.mem_singleton, List.not_mem_nil, or_false] at hx
    rcases hx with rfl | rfl | rfl | rfl | rfl | rfl | rfl | rfl <;> rfl
  | some e =>
    simp only [User.stop, h] at hx
    simp only [List.mem_cons, List.mem_singleton, List.not_mem_nil, or_false] at hx
    rcases hx with rfl | rfl | rfl | rfl <;> rfl

theorem stop_final_flags (cfg : SpawnerCfg) (senv : StopEnv) (now : ℕ) (s : SessionState) :
    (User.stop cfg senv now s).final.spawn_pending = false ∧
    (User.stop cfg senv now s).final.stop_pending = false ∧
    (User.stop cfg senv now s).final.waiting_for_response = s.waiting_for_response ∧
    (User.stop cfg senv now s).final.proxy_pending = s.proxy_pending := by
  cases h : (if senv.poll_exited then none else senv.stop_exc) with
  | none =>
    refine ⟨?_, ?_, ?_, ?_⟩ <;> simp only [User.stop, h]
  | some e =>
    refine ⟨?_, ?_, ?_, ?_⟩ <;> simp only [User.stop, h]

/-! ### Flag behaviour of `spawn` -/

theorem spawn_trace_not_both (cfg : SpawnerCfg) (st : HubSettings) (env : SpawnEnv)
    (fresh : String) (options : Option (List (String × String))) (now : ℕ)
    (s₀ : SessionState) (h0 : s₀.stop_pending = false) :
    ∀ x ∈ (User.spawn cfg st env fresh options now s₀).trace,
      x.spawn_pending = false ∨ x.stop_pending = false := by
  intro x hx
  cases hhook : (if st.has_authenticator then env.pre_hook_exc else none) with
  | some e =>
    simp only [User.spawn, hhook, List.mem_cons, List.mem_singleton,
      List.not_mem_nil, or_false] at hx
    rcases hx with rfl | rfl | rfl | rfl <;> exact Or.inr h0
  | none =>
    cases hstart : env.start_result with
    | error e =>
      simp only [User.spawn, hhook, hstart, List.mem_append, List.mem_cons,
        List.mem_singleton, List.not_mem_nil, or_false] at hx
      rcases hx with (rfl | rfl | rfl | rfl | rfl) | hmem
      · exact Or.inr h0
      · exact Or.inr h0
      · exact Or.inr h0
      · exact Or.inr h0
      · exact Or.inr h0
      · exact Or.inl (stop_trace_sp_false cfg env.stop_env now _ x hmem)
    | ok ip_port =>
      cases hwait : env.wait_result with
      | error e =>
        simp only [User.spawn, hhook, hstart, hwait, List.mem_append, List.mem_cons,
          List.mem_singleton, List.not_mem_nil, or_false] at hx
        rcases hx with ((rfl | rfl | rfl | rfl | rfl | rfl | rfl | rfl | rfl | rfl | rfl)
          | hmem) | (rfl | rfl)
        · exact Or.inr h0
        · exact Or.inr h0
        · exact Or.inr h0
        · exact Or.inr h0
        · exact Or.inr h0
        · exact Or.inr h0
        · exact Or.inr h0
        · exact Or.inr h0
        · exact Or.inr h0
        · exact Or.inr h0
        · exact Or.inr h0
        · exact Or.inl (stop_trace_sp_false cfg env.stop_env now _ x hmem)
        · exact Or.inr ((stop_final_flags cfg env.stop_env now _).2.1)
        · exact Or.inl rfl
      | ok resp =>
        simp only [User.spawn, hhook, hstart, hwait, List.mem_cons,
          List.mem_singleton, List.not_mem_nil, or_false] at hx
        rcases hx with rfl | rfl | rfl | rfl | rfl | rfl | rfl | rfl | rfl | rfl | rfl
          | rfl | rfl <;> exact Or.inr h0

theorem spawn_final_flags (cfg : SpawnerCfg) (st : HubSettings) (env : SpawnEnv)
    (fresh : String) (options : Option (List (String × String))) (now : ℕ)
    (s₀ : SessionState) (hsp : s₀.spawn_pending = false) (hstp : s₀.stop_pending = false)
    (hw : s₀.waiting_for_response = false) :
    (User.spawn cfg st env fresh options now s₀).final.spawn_pending = false ∧
    (User.spawn cfg st env fresh options now s₀).final.stop_pending = false ∧
    (User.spawn cfg st env fresh options now s₀).final.waiting_for_response = false ∧
    (User.spawn cfg st env fresh options now s₀).final.proxy_pending = s₀.proxy_pending := by
  have close : ∀ u : SessionState,
      (User.stop cfg env.stop_env now u).final.spawn_pending = false ∧
      (User.stop cfg env.stop_env now u).final.stop_pending = false ∧
      (User.stop cfg env.stop_env now u).final.waiting_for_response = u.waiting_for_response ∧
      (User.stop cfg env.stop_env now u).final.proxy_pending = u.proxy_pending :=
    fun u => stop_final_flags cfg env.stop_env now u
  cases hhook : (if st.has_authenticator then env.pre_hook_exc else none) with
  | some e =>
    refine ⟨?_, ?_, ?_, ?_⟩ <;> simp only [User.spawn, hhook] <;>
      first
      | exact hsp
      | exact hstp
      | exact hw
      | rfl
  | none =>
    cases hstart : env.start_result with
    | error e =>
      refine ⟨?_, ?_, ?_, ?_⟩ <;> simp only [User.spawn, hhook, hstart] <;>
        first
        | exact (close _).1
        | exact (close _).2.1
        | exact ((close _).2.2.1.trans hw)
        | exact (close _).2.2.2
    | ok ip_port =>
      cases hwait : env.wait_result with
      | error e =>
        refine ⟨?_, ?_, ?_, ?_⟩ <;> simp only [User.spawn, hhook, hstart, hwait] <;>
          first
          | rfl
          | exact (close _).2.1
          | exact (close _).2.2.2
      | ok resp =>
        refine ⟨?_, ?_, ?_, ?_⟩ <;> simp only [User.spawn, hhook, hstart, hwait] <;>
          first
          | rfl
          | exact hstp

/-! ### Server-record counting -/

theorem updateLastServer_length (ip : String) (port : ℕ) :
    ∀ servers : List ServerRec, (updateLastServer servers ip port).length = servers.length := by
  intro servers
  induction servers with
  | nil => rfl
  | cons r rest ih =>
    cases rest with
    | nil => rfl
    | cons r' rest' =>
      simp only [updateLastServer, List.length_cons] at ih ⊢
      omega

theorem stop_trace_servers (cfg : SpawnerCfg) (senv : StopEnv) (now : ℕ) (s : SessionState) :
    ∀ x ∈ (User.stop cfg senv now s).trace, x.servers = s.servers ∨ x.servers = [] := by
  intro x hx
  cases h : (if senv.poll_exited then none else senv.stop_exc) with
  | none =>
    simp only [User.stop, h, List.mem_cons, List.mem_singleton,
      List.not_mem_nil, or_false] at hx
    rcases hx with rfl | rfl | rfl | rfl | rfl | rfl | rfl | rfl <;>
      first
      | exact Or.inl rfl
      | exact Or.inr rfl
  | some e =>
    simp only [User.stop, h, List.mem_cons, List.mem_singleton,
      List.not_mem_nil, or_false] at hx
    rcases hx with rfl | rfl | rfl | rfl <;> exact Or.inl rfl

theorem stop_final_servers (cfg : SpawnerCfg) (senv : StopEnv) (now : ℕ) (s : SessionState) :
    (User.stop cfg senv now s).final.servers = s.servers ∨
    (User.stop cfg senv now s).final.servers = [] := by
  cases h : (if senv.poll_exited then none else senv.stop_exc) with
  | none => exact Or.inr (by simp only [User.stop, h])
  | some e => exact Or.inl (by simp only [User.stop, h])

theorem spawn_trace_servers (cfg : SpawnerCfg) (st : HubSettings) (env : SpawnEnv)
    (fresh : String) (options : Option (List (String × String))) (now : ℕ)
    (s₀ : SessionState) (h0 : s₀.servers = []) :
    ∀ x ∈ (User.spawn cfg st env fresh options now s₀).trace, x.servers.length ≤ 1 := by
  intro x hx
  have hone : ∀ r : ServerRec, (s₀.servers ++ [r]).length ≤ 1 := by
    intro r; rw [h0]; rfl
  have hstop : ∀ (u : SessionState), u.servers.length ≤ 1 →
      ∀ y ∈ (User.stop cfg env.stop_env now u).trace, y.servers.length ≤ 1 := by
    intro u hu y hy
    rcases stop_trace_servers cfg env.stop_env now u y hy with h | h
    · rw [h]; exact hu
    · rw [h]; exact Nat.zero_le 1
  have hstopf : ∀ (u : SessionState), u.servers.length ≤ 1 →
      (User.stop cfg env.stop_env now u).final.servers.length ≤ 1 := by
    intro u hu
    rcases stop_final_servers cfg env.stop_env now u with h | h
    · rw [h]; exact hu
    · rw [h]; exact Nat.zero_le 1
  cases hhook : (if st.has_authenticator then env.pre_hook_exc else none) with
  | some e =>
    simp only [User.spawn, hhook, List.mem_cons, List.mem_singleton,
      List.not_mem_nil, or_false] at hx
    rcases hx with rfl | rfl | rfl | rfl <;>
      first
      | exact hone _
      | (rw [h0]; exact Nat.zero_le 1)
  | none =>
    cases hstart : env.start_result with
    | error e =>
      simp only [User.spawn, hhook, hstart, List.mem_append, List.mem_cons,
        List.mem_singleton, List.not_mem_nil, or_false] at hx
      rcases hx with (rfl | rfl | rfl | rfl | rfl) | hmem
      · exact hone _
      · exact hone _
      · exact hone _
      · exact hone _
      · exact hone _
      · exact hstop _ (hone _) x hmem
    | ok ip_port =>
      have hupd : ∀ u : List ServerRec, u.length ≤ 1 →
          (match ip_port with
           | some (ip, port) => updateLastServer u ip port
           | none => u).length ≤ 1 := by
        intro u hu
        cases ip_port with
        | none => exact hu
        | some p => rw [updateLastServer_length]; exact hu
      cases hwait : env.wait_result with
      | error e =>
        simp only [User.spawn, hhook, hstart, hwait, List.mem_append, List.mem_cons,
          List.mem_singleton, List.not_mem_nil, or_false] at hx
        rcases hx with ((rfl | rfl | rfl | rfl | rfl | rfl | rfl | rfl | rfl | rfl | rfl)
          | hmem) | (rfl | rfl)
        · exact hone _
        · exact hone _
        · exact hone _
        · exact hone _
        · exact hone _
        · exact hupd _ (hone _)
        · exact hupd _ (hone _)
        · exact hupd _ (hone _)
        · exact hupd _ (hone _)
        · exact hupd _ (hone _)
        · exact hupd _ (hone _)
        · exact hstop _ (hupd _ (hone _)) x hmem
        · exact hstopf _ (hupd _ (hone _))
        · exact hstopf _ (hupd _ (hone _))
      | ok resp =>
        simp only [User.spawn, hhook, hstart, hwait, List.mem_cons,
          List.mem_singleton, List.not_mem_nil, or_false] at hx
        rcases hx with rfl | rfl | rfl | rfl | rfl | rfl | rfl | rfl | rfl | rfl | rfl
          | rfl | rfl <;>
          first
          | exact hone _
          | exact hupd _ (hone _)

theorem spawn_final_servers (cfg : SpawnerCfg) (st : HubSettings) (env : SpawnEnv)
    (fresh : String) (options : Option (List (String × String))) (now : ℕ)
    (s₀ : SessionState) (h0 : s₀.servers = []) :
    (User.spawn cfg st env fresh options now s₀).final.servers.length ≤ 1 := by
  have hone : ∀ r : ServerRec, (s₀.servers ++ [r]).length ≤ 1 := by
    intro r; rw [h0]; rfl
  have hstopf : ∀ (u : SessionState), u.servers.length ≤ 1 →
      (User.stop cfg env.stop_env now u).final.servers.length ≤ 1 := by
    intro u hu
    rcases stop_final_servers cfg env.stop_env now u with h | h
    · rw [h]; exact hu
    · rw [h]; exact Nat.zero_le 1
  cases hhook : (if st.has_authenticator then env.pre_hook_exc else none) with
  | some e =>
    simp only [User.spawn, hhook]
    exact hone _
  | none =>
    cases hstart : env.start_result with
    | error e =>
      simp only [User.spawn, hhook, hstart]
      exact hstopf _ (hone _)
    | ok ip_port =>
      have hupd : ∀ u : List ServerRec, u.length ≤ 1 →
          (match ip_port with
           | some (ip, port) => updateLastServer u ip port
           | none => u).length ≤ 1 := by
        intro u hu
        cases ip_port with
        | none => exact hu
        | some p => rw [updateLastServer_length]; exact hu
      cases hwait : env.wait_result with
      | error e =>
        simp only [User.spawn, hhook, hstart, hwait]
        exact hstopf _ (hupd _ (hone _))
      | ok resp =>
        simp only [User.spawn, hhook, hstart, hwait]
        exact hupd _ (hone _)

/-! ### Reachability invariants -/

/-- Flags clear and at most one server row: holds at every quiescent
(operation-boundary) state. -/
def Quiescent (s : SessionState) : Prop :=
  s.spawn_pending = false ∧ s.stop_pending = false ∧
  s.waiting_for_response = false ∧ s.proxy_pending = false ∧
  s.servers.length ≤ 1

theorem servers_nil_of_not_running (s : SessionState)
    (hsp : s.spawn_pending = false) (hstp : s.stop_pending = false)
    (hpp : s.proxy_pending = false) (hr : User.running s = false) :
    s.servers = [] := by
  simp only [User.running, hsp, hstp, hpp, Bool.or_self, Bool.false_or,
    if_false] at hr
  cases hserv : s.servers.isEmpty with
  | true => exact List.isEmpty_iff.mp hserv
  | false => rw [hserv] at hr; simp at hr

theorem reachDone_quiescent (cfg : SpawnerCfg) (st : HubSettings) (s : SessionState)
    (h : ReachDone cfg st s) : Quiescent s := by
  induction h with
  | init => exact ⟨rfl, rfl, rfl, rfl, Nat.zero_le 1⟩
  | spawnFinal env fresh options now hr hsp hrun ih =>
    obtain ⟨ih1, ih2, ih3, ih4, _⟩ := ih
    have hnil := servers_nil_of_not_running _ ih1 ih2 ih4 hrun
    obtain ⟨f1, f2, f3, f4⟩ := spawn_final_flags cfg st env fresh options now _ ih1 ih2 ih3
    exact ⟨f1, f2, f3, f4.trans ih4, spawn_final_servers cfg st env fresh options now _ hnil⟩
  | stopFinal senv now hr ih =>
    obtain ⟨ih1, ih2, ih3, ih4, ih5⟩ := ih
    obtain ⟨f1, f2, f3, f4⟩ := stop_final_flags cfg senv now _
    refine ⟨f1, f2, f3.trans ih3, f4.trans ih4, ?_⟩
    rcases stop_final_servers cfg senv now _ with h | h
    · rw [h]; exact ih5
    · rw [h]; exact Nat.zero_le 1

theorem reach_not_both_pending (cfg : SpawnerCfg) (st : HubSettings) (s : SessionState)
    (h : Reach cfg st s) :
    s.spawn_pending = false ∨ s.stop_pending = false := by
  cases h with
  | done hd => exact Or.inr (reachDone_quiescent cfg st _ hd).2.1
  | spawnMid env fresh options now hd hsp hrun hmem =>
    exact spawn_trace_not_both cfg st env fresh options now _
      (reachDone_quiescent cfg st _ hd).2.1 _ hmem
  | stopMid senv now hd hmem =>
    exact Or.inl (stop_trace_sp_false cfg senv now _ _ hmem)

theorem reach_servers_le_one (cfg : SpawnerCfg) (st : HubSettings) (s : SessionState)
    (h : Reach cfg st s) : s.servers.length ≤ 1 := by
  cases h with
  | done hd => exact (reachDone_quiescent cfg st _ hd).2.2.2.2
  | spawnMid env fresh options now hd hsp hrun hmem =>
    obtain ⟨q1, q2, q3, q4, q5⟩ := reachDone_quiescent cfg st _ hd
    exact spawn_trace_servers cfg st env fresh options now _
      (servers_nil_of_not_running _ q1 q2 q4 hrun) _ hmem
  | stopMid senv now hd hmem =>
    obtain ⟨q1, q2, q3, q4, q5⟩ := reachDone_quiescent cfg st _ hd
    rcases stop_trace_servers cfg senv now _ _ hmem with h | h
    · rw [h]; exact q5
    · rw [h]; exact Nat.zero_le 1

/-! ## Concrete fixtures used by counterexamples and witnesses -/

/-- Non-resuming spawner backend. -/
def cfgX : SpawnerCfg := ⟨false, 0, 0, none⟩

/-- Plain settings: no named servers, no authenticator, no OAuth provider. -/
def stX : HubSettings := ⟨false, false, false, false, "/user/x/", "x", "/user/x/"⟩

/-- Environment of a fully successful spawn. -/
def envOkX : SpawnEnv := ⟨none, .ok (some ("127.0.0.1", 8000)), .ok 200, ⟨false, none, false⟩⟩

/-- Environment whose HTTP readiness wait raises a non-timeout error. -/
def envWaitErrX : SpawnEnv :=
  ⟨none, .ok (some ("127.0.0.1", 8000)), .error (.otherExc 0), ⟨false, none, false⟩⟩

/-- The state reached inside a successful spawn right after
`waiting_for_response = True`: both `spawn_pending` and
`waiting_for_response` are set. -/
def overlapState : SessionState :=
  { spawn_pending := true, stop_pending := false, proxy_pending := false,
    waiting_for_response := true,
    servers := [⟨"", "/user/x/", "127.0.0.1", 8000⟩],
    tokens := ["tok"], clients := [], state_blob := 0, last_activity := 1,
    spawner := ⟨"", [], "tok", false, "user-x", 0, true⟩ }

theorem overlapState_reachable : Reach cfgX stX overlapState :=
  Reach.spawnMid envOkX "tok" none 1 ReachDone.init rfl rfl (by decide)

/-! ## Claims -/

/-- C1 (amended): in every reachable state of `spawn`/`stop` (under the
documented spawn precondition), `spawn_pending` and `stop_pending` are
never simultaneously true.  The full pairwise mutual exclusion claimed
for the three flags does not hold — see the counterexample — because the
step that sets `waiting_for_response` does not clear `spawn_pending`;
both are cleared together in the final cleanup. -/
theorem C1_spawn_stop_pending_exclusive (cfg : SpawnerCfg) (st : HubSettings)
    (s : SessionState) (h : Reach cfg st s) :
    ¬ (s.spawn_pending = true ∧ s.stop_pending = true) := by
  rintro ⟨h1, h2⟩
  rcases reach_not_both_pending cfg st s h with h3 | h3
  · rw [h1] at h3; cases h3
  · rw [h2] at h3; cases h3

/-- C1 witness: the exclusion evaluated at a concrete reachable state. -/
theorem C1_witness :
    ¬ (overlapState.spawn_pending = true ∧ overlapState.stop_pending = true) :=
  C1_spawn_stop_pending_exclusive cfgX stX overlapState overlapState_reachable

/-- C1 counterexample: a reachable state of a successful `spawn` (right
after step 10 sets `waiting_for_response`) in which `spawn_pending` and
`waiting_for_response` are both true, refuting pairwise mutual exclusion
of the three flags and refuting that the step that sets
`waiting_for_response` clears `spawn_pending`. -/
theorem C1_counterexample :
    Reach cfgX stX overlapState ∧
    overlapState.spawn_pending = true ∧ overlapState.waiting_for_response = true :=
  ⟨overlapState_reachable, rfl, rfl⟩

/-- The state reached inside the cleanup `stop()` of a spawn whose HTTP
readiness wait failed, right after `stop` clears `spawn_pending`:
`waiting_for_response` is still true, yet no flag `running` consults is
set and a server row exists. -/
def cleanupEntryState : SessionState :=
  { spawn_pending := false, stop_pending := false, proxy_pending := false,
    waiting_for_response := true,
    servers := [⟨"", "/user/x/", "127.0.0.1", 8000⟩],
    tokens := ["tok"], clients := [], state_blob := 0, last_activity := 1,
    spawner := ⟨"", [], "tok", false, "user-x", 0, true⟩ }

theorem cleanupEntryState_reachable : Reach cfgX stX cleanupEntryState :=
  Reach.spawnMid envWaitErrX "tok" none 1 ReachDone.init rfl rfl (by decide)

/-- C4 (amended): `running` is true iff `spawn_pending`, `stop_pending`
and `proxy_pending` are all false and a server record exists; it does
not consult `waiting_for_response` (see the counterexample). -/
theorem C4_running_characterization (s : SessionState) :
    User.running s = true ↔
      s.spawn_pending = false ∧ s.stop_pending = false ∧
      s.proxy_pending = false ∧ s.servers ≠ [] := by
  cases hsp : s.spawn_pending <;> cases hstp : s.stop_pending <;>
    cases hpp : s.proxy_pending <;>
      simp only [User.running, hsp, hstp, hpp, Bool.or_self, Bool.or_false,
        Bool.false_or, Bool.or_true, Bool.true_or, if_true, if_false,
        Bool.false_eq_true, false_and, and_false, true_and, and_true,
        false_iff, not_and, iff_false]
  · cases hE : s.servers with
    | nil => simp [hE]
    | cons a l => simp [hE]
  all_goals intro h; cases h
  
/-- C4 counterexample: a reachable state (entry of the cleanup `stop()`
after a failed readiness wait) where `waiting_for_response` is true and
a server record exists, yet `running` is true — refuting "whenever any
of the three flags is true, running is false". -/
theorem C4_counterexample :
    Reach cfgX stX cleanupEntryState ∧
    User.running cleanupEntryState = true ∧
    cleanupEntryState.waiting_for_response = true :=
  ⟨cleanupEntryState_reachable, rfl, rfl⟩

/-- C10: under the spawn precondition, every reachable state (quiescent
or mid-operation) has at most one server record of any given name — in
fact at most one server record in total, so in particular a session with
`allow_named_servers = false` has at most one. -/
theorem C10_server_record_uniqueness (cfg : SpawnerCfg) (st : HubSettings)
    (s : SessionState) (h : Reach cfg st s) :
    (∀ name : String, (s.servers.filter (fun r => r.name = name)).length ≤ 1) ∧
    (st.allow_named_servers = false → s.servers.length ≤ 1) := by
  have hle := reach_servers_le_one cfg st s h
  exact ⟨fun name => le_trans (List.length_filter_le _ _) hle, fun _ => hle⟩

/-- C10 witness: evaluated at the final state of a concrete successful
spawn (one server record). -/
theorem C10_witness :
    (((User.spawn cfgX stX envOkX "tok" none 1 initState).final.servers.filter
        (fun r => r.name = "")).length ≤ 1) ∧
    (User.spawn cfgX stX envOkX "tok" none 1 initState).final.servers.length ≤ 1 :=
  ⟨(C10_server_record_uniqueness cfgX stX _
      (Reach.done (ReachDone.spawnFinal envOkX "tok" none 1 ReachDone.init rfl rfl))).1 "",
   (C10_server_record_uniqueness cfgX stX _
      (Reach.done (ReachDone.spawnFinal envOkX "tok" none 1 ReachDone.init rfl rfl))).2 rfl⟩

/-- C5: `default_server_name` always returns the decimal string of the
smallest positive integer not already used as a server name (the
`RuntimeError` fall-through, modelled as `none`, is unreachable), and on
existing names `{"1","2","4"}` it returns `"3"`. -/
theorem C5_default_server_name :
    (∀ servers : List ServerRec,
      ∃ k : ℕ, 0 < k ∧ default_server_name servers = some (toString k) ∧
        toString k ∉ (servers.map (fun r => r.name)).toFinset ∧
        ∀ j, 0 < j → j < k →
          toString j ∈ (servers.map (fun r => r.name)).toFinset) ∧
    (∀ servers : List ServerRec, default_server_name servers ≠ none) ∧
    default_server_name_core {"1", "2", "4"} = some "3" := by
  refine ⟨fun servers => default_server_name_core_spec _, ?_, ?_⟩
  · intro servers hnone
    obtain ⟨k, _, hk, _, _⟩ := default_server_name_core_spec
      ((servers.map (fun r => r.name)).toFinset)
    rw [default_server_name] at hnone
    rw [hnone] at hk
    cases hk
  · decide

/-- C8: one iteration of the HTTP readiness probe — a fetched response,
or an `HTTPError` with status below 500 (e.g. 404), yields Ready with
that response; a status of 500 or above or a connection-level error is
NotReady and the loop retries after the backoff sleep; any other raised
error propagates immediately. -/
theorem C8_http_probe_classification :
    (∀ r, http_step (.fetched r) = .ready r) ∧
    (∀ code resp, code < 500 → http_step (.httpError code resp) = .ready resp) ∧
    (∀ code resp, 500 ≤ code → http_step (.httpError code resp) = .notReady) ∧
    (∀ errno, http_step (.connError errno) = .notReady) ∧
    (∀ e, http_step (.raised e) = .error e) ∧
    (∀ (probe : ℕ → FetchOutcome) (t : ℚ) (fuel k : ℕ) (dt elapsed : ℚ), 0 < dt →
      (∀ r, http_step (probe k) = .ready r →
        httpLoop probe t (fuel + 1) k dt elapsed = some (.ready r)) ∧
      (∀ e, http_step (probe k) = .error e →
        httpLoop probe t (fuel + 1) k dt elapsed = some (.raised e)) ∧
      (http_step (probe k) = .notReady →
        httpLoop probe t (fuel + 1) k dt elapsed =
          httpLoop probe t fuel (k + 1)
            (min (min (dt * DT_SCALE) DT_MAX) (t - (elapsed + dt))) (elapsed + dt))) := by
  refine ⟨fun r => rfl, ?_, ?_, fun errno => rfl, fun e => rfl, ?_⟩
  · intro code resp h
    simp [http_step, Nat.not_le.mpr h]
  · intro code resp h
    simp [http_step, h]
  · intro probe t fuel k dt elapsed hdt
    refine ⟨?_, ?_, ?_⟩
    · intro r hp
      simp only [httpLoop, hdt, if_true, hp]
    · intro e hp
      simp only [httpLoop, hdt, if_true, hp]
    · intro hp
      simp only [httpLoop, hdt, if_true, hp]

/-- C8 witness: the classification applied to concrete outcomes — a 404
is Ready, a 502 retries, and a malformed-URL style error propagates. -/
theorem C8_witness :
    http_step (.httpError 404 77) = .ready 77 ∧
    http_step (.httpError 502 5) = .notReady ∧
    httpLoop (fun _ => .raised 9) 10 3 0 DT_MIN 0 = some (.raised 9) :=
  ⟨C8_http_probe_classification.2.1 404 77 (by norm_num),
   C8_http_probe_classification.2.2.1 502 5 (by norm_num),
   (C8_http_probe_classification.2.2.2.2.2 (fun _ => .raised 9) 10 2 0 DT_MIN 0
      (by norm_num [DT_MIN])).2.1 9 rfl⟩

/-- C6: the backoff poller sleeps `0.1` after the first failed probe and
each failure sets the next delay to `min(prev * 2, 5, remaining budget)`
(so the schedule is 0.1, 0.2, 0.4, ... capped at 5 while the budget is
not binding); it never exhausts its iteration fuel, returns as soon as a
probe is ready, and raises Timeout exactly when the computed delay
became non-positive with no earlier probe having been ready. -/
theorem C6_backoff_poller (probe : ℕ → Bool) (t : ℚ) :
    dtSeq t 0 = 1 / 10 ∧
    (∀ k, elapsedSeq t (k + 1) = elapsedSeq t k + dtSeq t k) ∧
    (∀ k, dtSeq t (k + 1) = min (min (dtSeq t k * 2) 5) (t - elapsedSeq t (k + 1))) ∧
    (∀ k, (∀ j, j ≤ k → min ((1 / 10) * 2 ^ j) 5 ≤ t - elapsedSeq t j) →
      dtSeq t k = min ((1 / 10) * 2 ^ k) 5) ∧
    wait_for_server probe t ≠ none ∧
    (∀ k, probe k = true → (∀ j, j < k → probe j = false) →
      (∀ j, j ≤ k → 0 < dtSeq t j) →
      wait_for_server probe t = some (.connected k)) ∧
    (wait_for_server probe t = some .timedOut ↔
      ∃ k, dtSeq t k ≤ 0 ∧ ∀ j, j < k → probe j = false ∧ 0 < dtSeq t j) := by
  refine ⟨rfl, fun k => elapsedSeq_succ t k, fun k => dtSeq_succ t k,
    fun k h => dtSeq_cap t k h, ?_, ?_, ?_⟩
  · rw [wait_for_server_char]
    exact Option.some_ne_none _
  · intro k hpk hprev hpos
    have hidx : haltIdx probe t = k := by
      rw [haltIdx, Nat.find_eq_iff]
      refine ⟨Or.inr hpk, ?_⟩
      intro m hm hPm
      rcases hPm with h | h
      · exact absurd h (not_le.mpr (hpos m (by omega)))
      · rw [hprev m hm] at h; cases h
    rw [wait_for_server_char, hidx]
    simp [hpos k (le_refl k), hpk]
  · constructor
    · intro hres
      refine ⟨haltIdx probe t, ?_, haltIdx_min probe t⟩
      rw [wait_for_server_char] at hres
      rcases haltIdx_halt probe t with h | h
      · exact h
      · by_contra hpos
        push_neg at hpos
        simp [not_le.mpr hpos, h] at hres
    · rintro ⟨k, hk, hmin⟩
      have hidx : haltIdx probe t = k := by
        rw [haltIdx, Nat.find_eq_iff]
        refine ⟨Or.inl hk, ?_⟩
        intro m hm hPm
        rcases hPm with h | h
        · exact absurd h (not_le.mpr (hmin m hm).2)
        · rw [(hmin m hm).1] at h; cases h
      rw [wait_for_server_char, hidx]
      have hne : ¬ (0 < dtSeq t k ∧ probe k = true) :=
        fun hc => absurd hk (not_le.mpr hc.1)
      simp [hne]

/-- C6 witness: a probe ready at the third attempt connects at attempt 2
under budget 1 (delays 0.1, 0.2 positive); a never-ready probe under
budget 0 times out at attempt 1, where the computed delay is
`min(0.2, 5, -0.1)`. -/
theorem C6_witness :
    wait_for_server (fun k => decide (k = 2)) 1 = some (.connected 2) ∧
    wait_for_server (fun _ => false) 0 = some .timedOut :=
  ⟨(C6_backoff_poller (fun k => decide (k = 2)) 1).2.2.2.2.2.1 2 (by decide)
      (by decide)
      (by
        intro j hj
        interval_cases j <;>
          norm_num [dtSeq, dtElapsed, DT_MIN, DT_SCALE, DT_MAX, min_def]),
   (C6_backoff_poller (fun _ => false) 0).2.2.2.2.2.2.mpr
      ⟨1, by norm_num [dtSeq, dtElapsed, DT_MIN, DT_SCALE, DT_MAX, min_def],
        by
          intro j hj
          interval_cases j
          exact ⟨rfl, by norm_num [dtSeq, dtElapsed, DT_MIN]⟩⟩⟩

theorem stop_trace_has_stop_pending (cfg : SpawnerCfg) (senv : StopEnv) (now : ℕ)
    (u : SessionState) :
    ∃ x ∈ (User.stop cfg senv now u).trace, x.stop_pending = true := by
  cases h : (if senv.poll_exited then none else senv.stop_exc) with
  | none =>
    simp only [User.stop, h]
    exact ⟨_, List.mem_cons_of_mem _ (List.mem_cons_of_mem _ (List.mem_cons_self _ _)), rfl⟩
  | some e =>
    simp only [User.stop, h]
    exact ⟨_, List.mem_cons_of_mem _ (List.mem_cons_of_mem _ (List.mem_cons_self _ _)), rfl⟩

/-- C7: any exception from the start phase or the readiness wait is
tagged `reason = timeout` when it is the phase's timeout error and
`reason = error` otherwise; the internal `stop()` cleanup runs (the
trace reaches a `stop_pending` state); any exception raised by that
cleanup is swallowed, and the original exception — never the cleanup
failure — is what `spawn` raises.  This holds for every cleanup
environment, including one whose `spawner.stop()` raises. -/
theorem C7_cleanup_then_reraise (cfg : SpawnerCfg) (st : HubSettings) (env : SpawnEnv)
    (fresh : String) (options : Option (List (String × String))) (now : ℕ)
    (s₀ : SessionState)
    (hhook : (if st.has_authenticator then env.pre_hook_exc else none) = none) :
    (∀ e, env.start_result = .error e →
      (User.spawn cfg st env fresh options now s₀).err =
        some (e, some (if e = .timeoutExc then "timeout" else "error")) ∧
      ∃ x ∈ (User.spawn cfg st env fresh options now s₀).trace,
        x.stop_pending = true) ∧
    (∀ e ip_port, env.start_result = .ok ip_port → env.wait_result = .error e →
      (User.spawn cfg st env fresh options now s₀).err =
        some (e, some (if e = .timeoutExc then "timeout" else "error")) ∧
      ∃ x ∈ (User.spawn cfg st env fresh options now s₀).trace,
        x.stop_pending = true) := by
  constructor
  · intro e he
    refine ⟨by simp only [User.spawn, hhook, he], ?_⟩
    simp only [User.spawn, hhook, he]
    exact Exists.imp
      (fun x hx => ⟨List.mem_append_right _ hx.1, hx.2⟩)
      (stop_trace_has_stop_pending cfg env.stop_env now _)
  · intro e ip_port hs hw
    refine ⟨by simp only [User.spawn, hhook, hs, hw], ?_⟩
    simp only [User.spawn, hhook, hs, hw]
    exact Exists.imp
      (fun x hx => ⟨List.mem_append_left _ (List.mem_append_right _ hx.1), hx.2⟩)
      (stop_trace_has_stop_pending cfg env.stop_env now _)

/-- Environment whose `spawner.start()` times out and whose cleanup
`stop()` itself raises. -/
def envStartTO : SpawnEnv := ⟨none, .error .timeoutExc, .ok 0, ⟨false, some (.otherExc 3), false⟩⟩

/-- C7 witness: a concrete timed-out start with a failing cleanup still
re-raises the original timeout tagged `reason = 'timeout'` and the trace
shows the cleanup ran. -/
theorem C7_witness :
    (User.spawn cfgX stX envStartTO "tok" none 1 initState).err =
      some (.timeoutExc, some "timeout") ∧
    ∃ x ∈ (User.spawn cfgX stX envStartTO "tok" none 1 initState).trace,
      x.stop_pending = true :=
  (C7_cleanup_then_reraise cfgX stX envStartTO "tok" none 1 initState rfl).1
    .timeoutExc rfl

/-! ### Helpers for token bookkeeping -/

theorem erase_appended_fresh (l : List String) (a : String) (h : a ∉ l) :
    (l ++ [a]).erase a = l := by
  rw [List.erase_append_right _ h, List.erase_cons_head, List.append_nil]

theorem not_mem_erase_of_not_mem (l : List String) (a b : String) (h : a ∉ l) :
    a ∉ l.erase b := fun hm => h ((List.erase_sublist b l).subset hm)

/-- Completed `stop` (its try block did not raise): the final state in
closed form. -/
theorem stop_ok_final (cfg : SpawnerCfg) (senv : StopEnv) (now : ℕ) (u : SessionState)
    (hclean : (if senv.poll_exited then none else senv.stop_exc) = none) :
    (User.stop cfg senv now u).final =
      { u with
        spawn_pending := false, stop_pending := false, servers := [],
        tokens := (if cfg.will_resume then u.tokens
                   else u.tokens.erase u.spawner.api_token),
        state_blob := cfg.cleared_blob, last_activity := now,
        spawner := { u.spawner with blob := cfg.cleared_blob, polling := false } } := by
  simp only [User.stop, hclean]

theorem stop_ok_err (cfg : SpawnerCfg) (senv : StopEnv) (now : ℕ) (u : SessionState)
    (hclean : (if senv.poll_exited then none else senv.stop_exc) = none) :
    (User.stop cfg senv now u).err = none := by
  simp only [User.stop, hclean]

/-- Fully successful `spawn`: closed forms of the fields the claims
inspect. -/
theorem spawn_ok_parts (cfg : SpawnerCfg) (st : HubSettings) (env : SpawnEnv)
    (fresh : String) (options : Option (List (String × String))) (now : ℕ)
    (s₀ : SessionState) (ip_port : Option (String × ℕ)) (resp : ℕ)
    (hhook : (if st.has_authenticator then env.pre_hook_exc else none) = none)
    (hs : env.start_result = .ok ip_port) (hw : env.wait_result = .ok resp) :
    (User.spawn cfg st env fresh options now s₀).err = none ∧
    (User.spawn cfg st env fresh options now s₀).final.tokens =
      (if (cfg.resume_token.getD fresh) ≠ fresh
       then (s₀.tokens ++ [fresh]).erase fresh else s₀.tokens ++ [fresh]) ∧
    (User.spawn cfg st env fresh options now s₀).final.spawner.api_token =
      cfg.resume_token.getD fresh ∧
    (User.spawn cfg st env fresh options now s₀).final.state_blob = cfg.start_blob ∧
    (User.spawn cfg st env fresh options now s₀).final.clients =
      (if st.has_oauth then
         if (fetch_by_client_id s₀.clients
              (oauthClientId st (User.computeServerName st options s₀.servers))).isNone
            || !cfg.will_resume then
           add_client s₀.clients
             (oauthClientId st (User.computeServerName st options s₀.servers)) fresh
             (url_path_join [st.user_url, "oauth_callback"])
         else s₀.clients
       else s₀.clients) := by
  refine ⟨?_, ?_, ?_, ?_, ?_⟩ <;> simp only [User.spawn, hhook, hs, hw]

/-- C2 (amended): a spawn that fails in the backend-start phase or the
readiness wait — with the internal cleanup `stop()` succeeding — ends
with all pending flags clear, no server record, and (unless the spawner
declared it will resume) no token of that attempt.  A pre-spawn-hook
failure, by contrast, aborts before the backend starts but leaves the
already-persisted server record and API token behind (see the
counterexample). -/
theorem C2_failed_spawn_state (cfg : SpawnerCfg) (st : HubSettings) (env : SpawnEnv)
    (fresh : String) (options : Option (List (String × String))) (now : ℕ)
    (s₀ : SessionState)
    (hsp : s₀.spawn_pending = false) (hstp : s₀.stop_pending = false)
    (hw : s₀.waiting_for_response = false) (hfresh : fresh ∉ s₀.tokens)
    (hhook : (if st.has_authenticator then env.pre_hook_exc else none) = none)
    (hclean : (if env.stop_env.poll_exited then none else env.stop_env.stop_exc) = none)
    (hfail : (∃ e, env.start_result = .error e) ∨
      ((∃ p, env.start_result = .ok p) ∧ (∃ e, env.wait_result = .error e))) :
    (User.spawn cfg st env fresh options now s₀).final.spawn_pending = false ∧
    (User.spawn cfg st env fresh options now s₀).final.stop_pending = false ∧
    (User.spawn cfg st env fresh options now s₀).final.waiting_for_response = false ∧
    (User.spawn cfg st env fresh options now s₀).final.servers = [] ∧
    (cfg.will_resume = false →
      fresh ∉ (User.spawn cfg st env fresh options now s₀).final.tokens) := by
  obtain ⟨f1, f2, f3, _⟩ := spawn_final_flags cfg st env fresh options now s₀ hsp hstp hw
  refine ⟨f1, f2, f3, ?_, ?_⟩
  · rcases hfail with ⟨e, he⟩ | ⟨⟨p, hs⟩, ⟨e, hwe⟩⟩
    · simp only [User.spawn, hhook, he]
      rw [stop_ok_final cfg env.stop_env now _ hclean]
    · simp only [User.spawn, hhook, hs, hwe]
      rw [stop_ok_final cfg env.stop_env now _ hclean]
  · intro hwr
    rcases hfail with ⟨e, he⟩ | ⟨⟨p, hs⟩, ⟨e, hwe⟩⟩
    · simp only [User.spawn, hhook, he]
      rw [stop_ok_final cfg env.stop_env now _ hclean]
      simp only [hwr, Bool.false_eq_true, if_false]
      rw [erase_appended_fresh s₀.tokens fresh hfresh]
      exact hfresh
    · simp only [User.spawn, hhook, hs, hwe]
      rw [stop_ok_final cfg env.stop_env now _ hclean]
      simp only [hwr, Bool.false_eq_true, if_false]
      cases hrt : cfg.resume_token with
      | none =>
        simp only [hrt, Option.getD_none]
        rw [if_neg (by simp), erase_appended_fresh s₀.tokens fresh hfresh]
        exact hfresh
      | some t =>
        by_cases ht : t = fresh
        · simp only [hrt, Option.getD_some, ht]
          rw [if_neg (by simp), erase_appended_fresh s₀.tokens fresh hfresh]
          exact hfresh
        · simp only [hrt, Option.getD_some]
          rw [if_pos ht, erase_appended_fresh s₀.tokens fresh hfresh]
          exact not_mem_erase_of_not_mem s₀.tokens fresh t hfresh

/-- Environment whose `spawner.start()` raises a non-timeout error, with
a clean cleanup. -/
def envStartErr : SpawnEnv := ⟨none, .error (.otherExc 2), .ok 0, ⟨false, none, false⟩⟩

/-- C2 witness: a concrete failed start ends with no server record and
the freshly issued token gone. -/
theorem C2_witness :
    (User.spawn cfgX stX envStartErr "tok" none 1 initState).final.servers = [] ∧
    "tok" ∉ (User.spawn cfgX stX envStartErr "tok" none 1 initState).final.tokens :=
  ⟨(C2_failed_spawn_state cfgX stX envStartErr "tok" none 1 initState rfl rfl rfl
      (List.not_mem_nil "tok") rfl rfl (Or.inl ⟨_, rfl⟩)).2.2.2.1,
   (C2_failed_spawn_state cfgX stX envStartErr "tok" none 1 initState rfl rfl rfl
      (List.not_mem_nil "tok") rfl rfl (Or.inl ⟨_, rfl⟩)).2.2.2.2 rfl⟩

/-- Settings with an authenticator configured. -/
def stAuth : HubSettings := ⟨false, true, false, false, "/user/x/", "x", "/user/x/"⟩

/-- Environment whose pre-spawn hook raises. -/
def envHookErr : SpawnEnv := ⟨some (.otherExc 7), .ok none, .ok 0, ⟨false, none, false⟩⟩

/-- C2 counterexample: a failure raised out of `spawn` — the pre-spawn
hook raising — leaves the freshly persisted server record AND the
freshly issued API token in storage, refuting "no Server Record and no
API Token persisted for that spawn attempt" for every failure. -/
theorem C2_counterexample :
    (User.spawn cfgX stAuth envHookErr "tok" none 0 initState).err =
      some (.otherExc 7, none) ∧
    (User.spawn cfgX stAuth envHookErr "tok" none 0 initState).final.servers =
      [⟨"", "/user/x/", "", 0⟩] ∧
    (User.spawn cfgX stAuth envHookErr "tok" none 0 initState).final.tokens = ["tok"] :=
  ⟨rfl, rfl, rfl⟩

/-- C9: when the spawner resumes — `will_resume` with its OAuth client id
already registered and holding its previously issued token `t` after
`start` — a successful spawn leaves the client store untouched (no new
registration), deletes exactly the freshly issued token (the token list
returns to its prior value), and the spawner keeps the old token. -/
theorem C9_resume_reuses_client_and_token (cfg : SpawnerCfg) (st : HubSettings)
    (env : SpawnEnv) (fresh : String) (options : Option (List (String × String)))
    (now : ℕ) (s₀ : SessionState) (ip_port : Option (String × ℕ)) (resp : ℕ) (t : String)
    (hhook : (if st.has_authenticator then env.pre_hook_exc else none) = none)
    (hs : env.start_result = .ok ip_port) (hw : env.wait_result = .ok resp)
    (hwr : cfg.will_resume = true)
    (hfound : (fetch_by_client_id s₀.clients
      (oauthClientId st (User.computeServerName st options s₀.servers))).isSome = true)
    (hrt : cfg.resume_token = some t) (htne : t ≠ fresh) (hfresh : fresh ∉ s₀.tokens) :
    (User.spawn cfg st env fresh options now s₀).final.clients = s₀.clients ∧
    (User.spawn cfg st env fresh options now s₀).final.tokens = s₀.tokens ∧
    (User.spawn cfg st env fresh options now s₀).final.spawner.api_token = t := by
  obtain ⟨_, htok, hapi, _, hcli⟩ :=
    spawn_ok_parts cfg st env fresh options now s₀ ip_port resp hhook hs hw
  refine ⟨?_, ?_, ?_⟩
  · rw [hcli]
    cases hval : fetch_by_client_id s₀.clients
        (oauthClientId st (User.computeServerName st options s₀.servers)) with
    | none => rw [hval] at hfound; cases hfound
    | some c =>
      simp only [hval, Option.isNone_some, hwr, Bool.not_true, Bool.or_false,
        Bool.false_eq_true, if_false, ite_self]
  · rw [htok, hrt]
    simp only [Option.getD_some]
    rw [if_pos htne]
    exact erase_appended_fresh s₀.tokens fresh hfresh
  · rw [hapi, hrt]
    rfl

/-- Settings with an OAuth provider configured. -/
def stOauth : HubSettings := ⟨false, false, true, false, "/user/x/", "x", "/user/x/"⟩

/-- A resuming backend that will hand back the previously issued token
`"old"`. -/
def cfgResume : SpawnerCfg := ⟨true, 0, 5, some "old"⟩

/-- Session whose prior spawner resumed: its OAuth client is registered
and its old token is still live. -/
def resumedState : SessionState :=
  { initState with
    clients := [⟨"user-x", "old", "/user/x/oauth_callback"⟩],
    tokens := ["old"] }

/-- C9 witness: the concrete resumed session re-spawned successfully —
client store unchanged, token list back to `["old"]`, spawner holding
`"old"`. -/
theorem C9_witness :
    (User.spawn cfgResume stOauth envOkX "tok" none 1 resumedState).final.clients =
      resumedState.clients ∧
    (User.spawn cfgResume stOauth envOkX "tok" none 1 resumedState).final.tokens =
      ["old"] ∧
    (User.spawn cfgResume stOauth envOkX "tok" none 1 resumedState).final.spawner.api_token =
      "old" :=
  C9_resume_reuses_client_and_token cfgResume stOauth envOkX "tok" none 1 resumedState
    (some ("127.0.0.1", 8000)) 200 "old" rfl rfl rfl rfl (by decide) rfl
    (by decide) (by decide)

/-- C3: a successful spawn followed by a completed stop ends Idle (all
four flags clear) with zero server records; unless the spawner declared
`will_resume`, zero tokens remain; with `will_resume`, exactly one token
(the one the spawner holds) remains, and the state persisted is the one
the spawner exports after `clear_state` — the blob the backend reports
for its resume cycle.  The session's prior token list is the spawner's
resume token, if any (a session that is not running holds no other live
token). -/
theorem C3_spawn_then_stop (cfg : SpawnerCfg) (st : HubSettings) (env : SpawnEnv)
    (fresh : String) (options : Option (List (String × String))) (now : ℕ)
    (s₀ : SessionState) (ip_port : Option (String × ℕ)) (resp : ℕ)
    (senv2 : StopEnv) (now2 : ℕ)
    (hsp : s₀.spawn_pending = false) (hstp : s₀.stop_pending = false)
    (hw : s₀.waiting_for_response = false) (hpp : s₀.proxy_pending = false)
    (htok : s₀.tokens = cfg.resume_token.toList) (hfresh : fresh ∉ s₀.tokens)
    (hhook : (if st.has_authenticator then env.pre_hook_exc else none) = none)
    (hs : env.start_result = .ok ip_port) (hwres : env.wait_result = .ok resp)
    (hclean2 : (if senv2.poll_exited then none else senv2.stop_exc) = none) :
    (User.spawn cfg st env fresh options now s₀).err = none ∧
    (User.stop cfg senv2 now2 (User.spawn cfg st env fresh options now s₀).final).err
      = none ∧
    ((User.stop cfg senv2 now2
        (User.spawn cfg st env fresh options now s₀).final).final.spawn_pending = false ∧
     (User.stop cfg senv2 now2
        (User.spawn cfg st env fresh options now s₀).final).final.stop_pending = false ∧
     (User.stop cfg senv2 now2
        (User.spawn cfg st env fresh options now s₀).final).final.waiting_for_response
        = false ∧
     (User.stop cfg senv2 now2
        (User.spawn cfg st env fresh options now s₀).final).final.proxy_pending = false) ∧
    (User.stop cfg senv2 now2
        (User.spawn cfg st env fresh options now s₀).final).final.servers = [] ∧
    (cfg.will_resume = true →
      (User.stop cfg senv2 now2
          (User.spawn cfg st env fresh options now s₀).final).final.tokens.length = 1 ∧
      (User.stop cfg senv2 now2
          (User.spawn cfg st env fresh options now s₀).final).final.state_blob
        = cfg.cleared_blob) ∧
    (cfg.will_resume = false →
      (User.stop cfg senv2 now2
          (User.spawn cfg st env fresh options now s₀).final).final.tokens = []) := by
  obtain ⟨herr, htokens, hapi, _, _⟩ :=
    spawn_ok_parts cfg st env fresh options now s₀ ip_port resp hhook hs hwres
  obtain ⟨f1, f2, f3, f4⟩ := spawn_final_flags cfg st env fresh options now s₀ hsp hstp hw
  obtain ⟨g1, g2, g3, g4⟩ := stop_final_flags cfg senv2 now2
    (User.spawn cfg st env fresh options now s₀).final
  have hT : (User.spawn cfg st env fresh options now s₀).final.tokens =
      (match cfg.resume_token with
       | some t => [t]
       | none => [fresh]) := by
    rw [htokens]
    cases hrt : cfg.resume_token with
    | none =>
      rw [htok, hrt]
      simp only [Option.getD_none, Option.toList_none]
      rw [if_neg (by simp), List.nil_append]
    | some t =>
      have htne : t ≠ fresh := by
        intro hcon
        rw [htok, hrt, Option.toList_some, hcon] at hfresh
        exact hfresh (List.mem_singleton_self fresh)
      rw [htok, hrt]
      simp only [Option.getD_some, Option.toList_some]
      rw [if_pos htne]
      exact erase_appended_fresh [t] fresh (by simp [Ne.symm htne])
  have hA : (User.spawn cfg st env fresh options now s₀).final.spawner.api_token =
      (match cfg.resume_token with
       | some t => t
       | none => fresh) := by
    rw [hapi]
    cases cfg.resume_token <;> rfl
  rw [stop_ok_final cfg senv2 now2 _ hclean2]
  refine ⟨herr, stop_ok_err cfg senv2 now2 _ hclean2, ⟨rfl, rfl, f3, f4.trans hpp⟩,
    rfl, ?_, ?_⟩
  · intro hwr
    refine ⟨?_, rfl⟩
    simp only [hwr, if_true]
    rw [hT]
    cases cfg.resume_token <;> rfl
  · intro hwr
    simp only [hwr, Bool.false_eq_true, if_false]
    rw [hT, hA]
    cases cfg.resume_token <;> simp

/-- C3 witness: concretely, a non-resuming session ends spawn-then-stop
with zero tokens, and a resuming one with exactly one. -/
theorem C3_witness :
    (User.stop cfgX ⟨false, none, false⟩ 2
        (User.spawn cfgX stX envOkX "tok" none 1 initState).final).final.tokens = [] ∧
    (User.stop cfgResume ⟨false, none, false⟩ 2
        (User.spawn cfgResume stOauth envOkX "tok" none 1
          resumedState).final).final.tokens.length = 1 :=
  ⟨(C3_spawn_then_stop cfgX stX envOkX "tok" none 1 initState
      (some ("127.0.0.1", 8000)) 200 ⟨false, none, false⟩ 2
      rfl rfl rfl rfl rfl (List.not_mem_nil "tok") rfl rfl rfl rfl).2.2.2.2.2 rfl,
   ((C3_spawn_then_stop cfgResume stOauth envOkX "tok" none 1 resumedState
      (some ("127.0.0.1", 8000)) 200 ⟨false, none, false⟩ 2
      rfl rfl rfl rfl rfl (by decide) rfl rfl rfl rfl).2.2.2.2.1 rfl).1⟩

/-- C4 witness: the characterization evaluated at the concrete reachable
state: all three consulted flags clear and a record present, so
`running` is true there. -/
theorem C4_witness : User.running cleanupEntryState = true :=
  (C4_running_characterization cleanupEntryState).mpr
    ⟨rfl, rfl, rfl, by decide⟩

/-- C5 witness: the gap-filling example evaluated concretely. -/
theorem C5_witness : default_server_name_core {"1", "2", "4"} = some "3" :=
  C5_default_server_name.2.2
